import Mathlib

/-!
Shallow embedding of the SR3 optimizer from `pysindy/optimizers/sr3.py`.

Real-valued numpy arrays are modelled as matrices over `ℚ`.  The design matrix
is `s × f` (samples × features), the response is `s × t` (samples × targets),
and coefficient matrices are `f × t`.  The scipy Cholesky pair
`cho_factor`/`cho_solve` is external library code; it is modelled semantically:
the factorization caches the matrix `M` and a solve multiplies by its inverse
(computed as `det⁻¹ • adjugate`, which agrees with Mathlib's `M⁻¹`).
Python exceptions raised by the constructor become `Except.error`.
-/

/-- Coefficient-shaped matrices: `f` features by `t` targets, over `ℚ`. -/
abbrev Mat (f t : ℕ) : Type := Matrix (Fin f) (Fin t) ℚ

/-- The result of `scipy.linalg.cho_factor`, modelled as a cache of the
factorized matrix itself (the factorization is an external library detail;
only the solve semantics matter). -/
structure CholFactorization (f : ℕ) where
  mat : Matrix (Fin f) (Fin f) ℚ

/-- The call `scipy.linalg.cho_factor(M)`: cache `M` for later solves. -/
def cho_factor {f : ℕ} (M : Matrix (Fin f) (Fin f) ℚ) : CholFactorization f :=
  ⟨M⟩

/-- Executable matrix inverse over `ℚ`: `det⁻¹ • adjugate`.  Agrees with
Mathlib's noncomputable `M⁻¹` (see `matInv_eq_inv`). -/
def matInv {f : ℕ} (M : Matrix (Fin f) (Fin f) ℚ) : Matrix (Fin f) (Fin f) ℚ :=
  M.det⁻¹ • M.adjugate

/-- The call `scipy.linalg.cho_solve(cho, b)`: solve `M · w = b` using the
cached factorization, i.e. return `M⁻¹ · b`. -/
def cho_solve {f t : ℕ} (cho : CholFactorization f) (b : Mat f t) : Mat f t :=
  matInv cho.mat * b

/-- Sign of a rational, as used by the soft-threshold formula. -/
def rsign (v : ℚ) : ℚ :=
  if 0 < v then 1 else if v < 0 then -1 else 0

/-- Modelled from the spec: the proximal-operator implementations live in
`pysindy.utils`, which is not under `src/`.  Hard threshold (spec section 4.2):
returns `value` unchanged where `|value| ≥ threshold`, else `0`; the tie at
`|value| = threshold` keeps the value. -/
def prox_l0 (value threshold : ℚ) : ℚ :=
  if threshold ≤ |value| then value else 0

/-- Modelled from the spec: soft threshold (spec section 4.2):
`sign(value) * max(|value| - threshold, 0)`. -/
def prox_l1 (value threshold : ℚ) : ℚ :=
  rsign value * max (|value| - threshold) 0

/-- Modelled from the spec: clipped absolute deviation (spec section 4.2), with
secondary parameter `a = 5 * threshold`; zero below `threshold`, identity above
`a`, linear interpolation in between, continuous at both boundaries. -/
def prox_cad (value threshold : ℚ) : ℚ :=
  let a := 5 * threshold
  if |value| < threshold then 0
  else if a < |value| then value
  else rsign value * (a * (|value| - threshold) / (a - threshold))

/-- Modelled from the spec: the registry `get_prox` in `pysindy.utils` is not
under `src/`.  It maps a regularizer name to its operator and rejects unknown
names (spec sections 4.1 and 4.2). -/
def get_prox (name : String) : Option (ℚ → ℚ → ℚ) :=
  if name = "l0" then some prox_l0
  else if name = "l1" then some prox_l1
  else if name = "cad" then some prox_cad
  else none

/-- Hyperparameter state stored by a successfully constructed `SR3` optimizer
(src lines 94-99): the five hyperparameters plus the resolved proximal
operator. -/
structure SR3 where
  threshold : ℚ
  nu : ℚ
  tol : ℚ
  thresholder : String
  prox : ℚ → ℚ → ℚ
  max_iter : ℤ

/-- The validation and construction in `SR3.__init__` (src lines 80-99).
Each Python `raise ValueError(msg)` becomes `Except.error msg`; an unknown
thresholder makes the (spec-modelled) registry lookup fail, so construction
fails and no instance is produced. -/
def SR3.make (threshold nu tol : ℚ) (thresholder : String) (max_iter : ℤ) :
    Except String SR3 :=
  if threshold < 0 then .error "threshold cannot be negative"
  else if nu ≤ 0 then .error "nu must be positive"
  else if tol ≤ 0 then .error "tol must be positive"
  else if max_iter ≤ 0 then .error "max_iter must be positive"
  else
    match get_prox thresholder with
    | some p =>
        .ok { threshold := threshold, nu := nu, tol := tol,
              thresholder := thresholder, prox := p, max_iter := max_iter }
    | none => .error "unknown thresholder"

/-- `SR3._update_full_coef` (src lines 101-107): `b = XᵀY + v/ν`, then a
`cho_solve` against the cached factorization; also performs `self.iters += 1`,
so the updated counter is returned alongside the new full coefficient. -/
def SR3.update_full_coef {f t : ℕ} (P : SR3) (cho : CholFactorization f)
    (x_transpose_y coef_sparse : Mat f t) (iters : ℕ) : Mat f t × ℕ :=
  let b := x_transpose_y + P.nu⁻¹ • coef_sparse
  (cho_solve cho b, iters + 1)

/-- The elementwise (numpy-broadcast) application `self.prox(coef_full,
self.threshold)` from `SR3._update_sparse_coef` (src line 112). -/
def SR3.apply_prox {f t : ℕ} (P : SR3) (coef_full : Mat f t) : Mat f t :=
  Matrix.of fun i j => P.prox (coef_full i j) P.threshold

/-- `SR3._update_sparse_coef` (src lines 109-114): apply the resolved proximal
operator elementwise to the full coefficient, append the result to
`self.history_`, and return it. -/
def SR3.update_sparse_coef {f t : ℕ} (P : SR3) (coef_full : Mat f t)
    (history : List (Mat f t)) : Mat f t × List (Mat f t) :=
  let coef_sparse : Mat f t := P.apply_prox coef_full
  (coef_sparse, history ++ [coef_sparse])

/-- `SR3._convergence_criterion` (src lines 116-124): the sum over all entries
of the squared difference between the last history entry and the previous one
(an all-zero matrix when only one entry exists). -/
def SR3.convergence_criterion {f t : ℕ} (history : List (Mat f t)) : ℚ :=
  let this_coef : Mat f t := history.getLast?.getD 0
  let last_coef : Mat f t :=
    if 1 < history.length then history.dropLast.getLast?.getD 0 else 0
  ∑ i, ∑ j, (this_coef i j - last_coef i j) ^ 2

/-- Exit status of the `_reduce` loop: Python `break` on convergence, or the
`for`/`else` branch when `range(max_iter)` is exhausted. -/
inductive ReduceStatus where
  | converged
  | exhausted
deriving DecidableEq

/-- Optimizer state when `_reduce` returns: `self.coef_` (sparse `v`),
`self.coef_full_` (`w`; `none` states that line 155 would read an unbound
local), `self.history_`, `self.iters`, the exit status, and the warnings
emitted during the call. -/
structure ReduceResult (f t : ℕ) where
  coef_ : Mat f t
  coef_full_ : Option (Mat f t)
  history_ : List (Mat f t)
  iters : ℕ
  status : ReduceStatus
  warnings : List String

/-- The message of the `ConvergenceWarning` raised by the `for`/`else` branch
of `SR3._reduce` (src lines 146-152). -/
def SR3.convergence_warning (P : SR3) : String :=
  "SR3._reduce did not converge after " ++ toString P.max_iter ++ " iterations."

/-- The `for _ in range(self.max_iter)` loop of `SR3._reduce` (src lines
139-155), as fuel recursion.  Running out of fuel is Python's `for`/`else`
branch: a `ConvergenceWarning` is emitted and the last computed coefficients
are kept.  A `break` (criterion `< tol`) returns with no warning.  The
factorization `cho` is a fixed parameter: every iteration reuses it. -/
def SR3.reduceLoop {f t : ℕ} (P : SR3) (cho : CholFactorization f)
    (x_transpose_y : Mat f t) :
    ℕ → Mat f t → Option (Mat f t) → List (Mat f t) → ℕ → ReduceResult f t
  | 0, coef_sparse, coef_full, history, iters =>
      { coef_ := coef_sparse, coef_full_ := coef_full, history_ := history,
        iters := iters, status := .exhausted,
        warnings := [P.convergence_warning] }
  | fuel + 1, coef_sparse, _, history, iters =>
      let fc := P.update_full_coef cho x_transpose_y coef_sparse iters
      let sc := P.update_sparse_coef fc.1 history
      if SR3.convergence_criterion sc.2 < P.tol then
        { coef_ := sc.1, coef_full_ := some fc.1, history_ := sc.2,
          iters := fc.2, status := .converged, warnings := [] }
      else
        SR3.reduceLoop P cho x_transpose_y fuel sc.1 (some fc.1) sc.2 fc.2

/-- `SR3._reduce` (src lines 126-155): factorize `M = XᵀX + diag(1/ν, …, 1/ν)`
once, precompute `XᵀY`, then run the loop from the caller-provided guess held
in `self.coef_`.  `history` and `iters` are the incoming optimizer state
(`self.history_`, `self.iters`). -/
def SR3.reduce {s f t : ℕ} (P : SR3) (x : Matrix (Fin s) (Fin f) ℚ)
    (y : Matrix (Fin s) (Fin t) ℚ) (coef_sparse : Mat f t)
    (history : List (Mat f t)) (iters : ℕ) : ReduceResult f t :=
  let cho := cho_factor (x.transpose * x + Matrix.diagonal fun _ => 1 / P.nu)
  let x_transpose_y := x.transpose * y
  SR3.reduceLoop P cho x_transpose_y P.max_iter.toNat coef_sparse none history iters

/-- Modelled from the spec: `BaseOptimizer.fit` is not under `src/`.  Per spec
sections 3 and 6, `fit(X, Y)` starts from the caller-supplied initial guess
with a fresh history (one snapshot per completed iteration of this fit) and a
fresh iteration counter, then delegates to `_reduce`. -/
def SR3.fit {s f t : ℕ} (P : SR3) (x : Matrix (Fin s) (Fin f) ℚ)
    (y : Matrix (Fin s) (Fin t) ℚ) (guess : Mat f t) : ReduceResult f t :=
  SR3.reduce P x y guess [] 0

/-- Modelled from the spec: a `fit` call on an optimizer instance whose state
(`prior` = the history and iteration counter left behind by earlier fits) is
arbitrary.  `BaseOptimizer.fit` (not under `src/`) re-seeds the initial guess
and resets history and counter per spec sections 3 and 6, so `prior` is
discarded before `_reduce` runs. -/
def SR3.fitFrom {s f t : ℕ} (P : SR3) (x : Matrix (Fin s) (Fin f) ℚ)
    (y : Matrix (Fin s) (Fin t) ℚ) (guess : Mat f t)
    (prior : List (Mat f t) × ℕ) : ReduceResult f t :=
  SR3.reduce P x y guess [] 0

/-- A concrete optimizer instance carrying the source defaults
(`threshold=0.1, nu=1, tol=1e-5, thresholder="l0", max_iter=30`), for concrete
instantiations of the theorems below. -/
def sr3Default : SR3 :=
  { threshold := 1/10, nu := 1, tol := 1/100000, thresholder := "l0",
    prox := prox_l0, max_iter := 30 }

/-- The default instance with `max_iter = 1` (the boundary scenario). -/
def sr3OneIter : SR3 :=
  { sr3Default with max_iter := 1 }

theorem matInv_eq_inv {f : ℕ} (M : Matrix (Fin f) (Fin f) ℚ) : matInv M = M⁻¹ := by
  rw [Matrix.inv_def, Ring.inverse_eq_inv']
  rfl

theorem reduceLoop_zero {f t : ℕ} (P : SR3) (cho : CholFactorization f)
    (xty : Mat f t) (cs : Mat f t) (cf : Option (Mat f t)) (hist : List (Mat f t))
    (iters : ℕ) :
    SR3.reduceLoop P cho xty 0 cs cf hist iters =
      { coef_ := cs, coef_full_ := cf, history_ := hist, iters := iters,
        status := .exhausted, warnings := [P.convergence_warning] } :=
  rfl

theorem reduceLoop_succ {f t : ℕ} (P : SR3) (cho : CholFactorization f)
    (xty : Mat f t) (fuel : ℕ) (cs : Mat f t) (cf : Option (Mat f t))
    (hist : List (Mat f t)) (iters : ℕ) :
    SR3.reduceLoop P cho xty (fuel + 1) cs cf hist iters =
      (if SR3.convergence_criterion
            (hist ++ [P.apply_prox (cho_solve cho (xty + P.nu⁻¹ • cs))]) < P.tol then
        { coef_ := P.apply_prox (cho_solve cho (xty + P.nu⁻¹ • cs)),
          coef_full_ := some (cho_solve cho (xty + P.nu⁻¹ • cs)),
          history_ := hist ++ [P.apply_prox (cho_solve cho (xty + P.nu⁻¹ • cs))],
          iters := iters + 1, status := .converged, warnings := [] }
      else
        SR3.reduceLoop P cho xty fuel
          (P.apply_prox (cho_solve cho (xty + P.nu⁻¹ • cs)))
          (some (cho_solve cho (xty + P.nu⁻¹ • cs)))
          (hist ++ [P.apply_prox (cho_solve cho (xty + P.nu⁻¹ • cs))])
          (iters + 1)) :=
  rfl

theorem reduceLoop_invariant {f t : ℕ} (P : SR3) (cho : CholFactorization f)
    (xty : Mat f t) :
    ∀ (fuel : ℕ) (cs : Mat f t) (cf : Option (Mat f t)) (hist : List (Mat f t))
      (iters : ℕ) (r : ReduceResult f t),
      r = SR3.reduceLoop P cho xty fuel cs cf hist iters →
      (r.history_.length + iters = hist.length + r.iters) ∧
      (iters ≤ r.iters ∧ r.iters ≤ iters + fuel) ∧
      (∃ l, r.history_ = hist ++ l) ∧
      (r.status = .exhausted → r.iters = iters + fuel ∧
        r.warnings = [P.convergence_warning]) ∧
      (r.status = .converged → r.warnings = [] ∧
        SR3.convergence_criterion r.history_ < P.tol) ∧
      ((1 ≤ fuel ∨ P.tol ≤ SR3.convergence_criterion hist) → r.status = .exhausted →
        P.tol ≤ SR3.convergence_criterion r.history_) ∧
      ((1 ≤ fuel ∨ ∃ w, cf = some w ∧ cs = P.apply_prox w ∧ hist.getLast? = some cs) →
        ∃ w, r.coef_full_ = some w ∧ r.coef_ = P.apply_prox w ∧
          r.history_.getLast? = some r.coef_) := by
  intro fuel
  induction fuel with
  | zero =>
    intro cs cf hist iters r hr
    subst hr
    rw [reduceLoop_zero]
    dsimp only
    refine ⟨rfl, ⟨le_rfl, by omega⟩, ⟨[], by simp⟩, fun _ => ⟨by omega, rfl⟩,
      fun hst => ReduceStatus.noConfusion hst, fun hpre _ => ?_, fun hpre => ?_⟩
    · rcases hpre with hf | hcrit
      · omega
      · exact hcrit
    · rcases hpre with hf | ⟨w, hw, hcs, hl⟩
      · omega
      · exact ⟨w, hw, hcs, hl⟩
  | succ n ih =>
    intro cs cf hist iters r hr
    rw [reduceLoop_succ] at hr
    by_cases hcrit : SR3.convergence_criterion
        (hist ++ [P.apply_prox (cho_solve cho (xty + P.nu⁻¹ • cs))]) < P.tol
    · rw [if_pos hcrit] at hr
      subst hr
      dsimp only
      refine ⟨?_, ⟨by omega, by omega⟩,
        ⟨[P.apply_prox (cho_solve cho (xty + P.nu⁻¹ • cs))], rfl⟩,
        fun hst => ReduceStatus.noConfusion hst, fun _ => ⟨rfl, hcrit⟩,
        fun _ hst => ReduceStatus.noConfusion hst,
        fun _ => ⟨cho_solve cho (xty + P.nu⁻¹ • cs), rfl, rfl,
          List.getLast?_concat _⟩⟩
      · simp only [List.length_append, List.length_cons, List.length_nil]
        omega
    · rw [if_neg hcrit] at hr
      obtain ⟨h1, h2, h3, h4, h5, h6, h7⟩ :=
        ih (P.apply_prox (cho_solve cho (xty + P.nu⁻¹ • cs)))
          (some (cho_solve cho (xty + P.nu⁻¹ • cs)))
          (hist ++ [P.apply_prox (cho_solve cho (xty + P.nu⁻¹ • cs))])
          (iters + 1) r hr
      refine ⟨?_, ⟨by omega, by omega⟩, ?_, ?_, h5, ?_, ?_⟩
      · simp only [List.length_append, List.length_cons, List.length_nil] at h1
        omega
      · obtain ⟨l, hl⟩ := h3
        exact ⟨P.apply_prox (cho_solve cho (xty + P.nu⁻¹ • cs)) :: l, by simpa using hl⟩
      · intro hst
        obtain ⟨hi, hwarn⟩ := h4 hst
        exact ⟨by omega, hwarn⟩
      · intro _ hst
        exact h6 (Or.inr (le_of_not_lt hcrit)) hst
      · intro _
        exact h7 (Or.inr ⟨cho_solve cho (xty + P.nu⁻¹ • cs), rfl, rfl,
          List.getLast?_concat _⟩)

theorem reduceLoop_iters_independent {f t : ℕ} (P : SR3) (cho : CholFactorization f)
    (xty : Mat f t) :
    ∀ (fuel : ℕ) (cs : Mat f t) (cf : Option (Mat f t)) (hist : List (Mat f t))
      (i i' : ℕ),
      (SR3.reduceLoop P cho xty fuel cs cf hist i).coef_ =
        (SR3.reduceLoop P cho xty fuel cs cf hist i').coef_ ∧
      (SR3.reduceLoop P cho xty fuel cs cf hist i).coef_full_ =
        (SR3.reduceLoop P cho xty fuel cs cf hist i').coef_full_ ∧
      (SR3.reduceLoop P cho xty fuel cs cf hist i).history_ =
        (SR3.reduceLoop P cho xty fuel cs cf hist i').history_ ∧
      (SR3.reduceLoop P cho xty fuel cs cf hist i).status =
        (SR3.reduceLoop P cho xty fuel cs cf hist i').status ∧
      (SR3.reduceLoop P cho xty fuel cs cf hist i).warnings =
        (SR3.reduceLoop P cho xty fuel cs cf hist i').warnings := by
  intro fuel
  induction fuel with
  | zero =>
    intro cs cf hist i i'
    rw [reduceLoop_zero, reduceLoop_zero]
    exact ⟨rfl, rfl, rfl, rfl, rfl⟩
  | succ n ih =>
    intro cs cf hist i i'
    rw [reduceLoop_succ, reduceLoop_succ]
    by_cases hcrit : SR3.convergence_criterion
        (hist ++ [P.apply_prox (cho_solve cho (xty + P.nu⁻¹ • cs))]) < P.tol
    · rw [if_pos hcrit, if_pos hcrit]
      exact ⟨rfl, rfl, rfl, rfl, rfl⟩
    · rw [if_neg hcrit, if_neg hcrit]
      exact ih _ _ _ (i + 1) (i' + 1)

theorem get_prox_eq_none_iff (name : String) :
    get_prox name = none ↔ name ≠ "l0" ∧ name ≠ "l1" ∧ name ≠ "cad" := by
  unfold get_prox
  split_ifs with h1 h2 h3
  · simp [h1]
  · simp [h1, h2]
  · simp [h1, h2, h3]
  · simp [h1, h2, h3]

/-- C2: the convergence criterion equals the sum over all matrix entries of the
squared difference between the last two History entries; with exactly one entry
it compares that entry against the all-zero matrix of the same shape. -/
theorem sr3_convergence_criterion_spec {f t : ℕ} :
    (∀ (hist : List (Mat f t)) (a b : Mat f t),
      SR3.convergence_criterion (hist ++ [a, b]) =
        ∑ i, ∑ j, (b i j - a i j) ^ 2) ∧
    (∀ a : Mat f t,
      SR3.convergence_criterion [a] =
        ∑ i, ∑ j, (a i j - (0 : Mat f t) i j) ^ 2) := by
  constructor
  · intro hist a b
    have hsplit : hist ++ [a, b] = (hist ++ [a]) ++ [b] := by simp
    have hlen : 1 < ((hist ++ [a]) ++ [b]).length := by
      simp [List.length_append]
    rw [hsplit, SR3.convergence_criterion]
    simp only [List.getLast?_concat, Option.getD_some, if_pos hlen,
      List.dropLast_concat]
  · intro a
    rw [SR3.convergence_criterion]
    simp

/-- C7: for `threshold ≥ 0`, the l0 proximal operator keeps the value exactly
when `|value| ≥ threshold` (ties kept) and zeroes it when `|value| < threshold`. -/
theorem sr3_prox_l0_hard_threshold (threshold value : ℚ) (hth : 0 ≤ threshold) :
    (threshold ≤ |value| → prox_l0 value threshold = value) ∧
    (|value| < threshold → prox_l0 value threshold = 0) := by
  constructor
  · intro hv
    simp [prox_l0, hv]
  · intro hv
    simp [prox_l0, not_le.mpr hv]

theorem sr3_prox_l0_hard_threshold_witness :
    (0 : ℚ) ≤ 1 ∧
    (((1 : ℚ) ≤ |(2 : ℚ)| → prox_l0 2 1 = 2) ∧
      (|(2 : ℚ)| < 1 → prox_l0 2 1 = 0)) :=
  ⟨by norm_num, sr3_prox_l0_hard_threshold 1 2 (by norm_num)⟩

/-- C4: construction fails with an error exactly when `threshold < 0`, `ν ≤ 0`,
`tol ≤ 0`, `max_iter ≤ 0`, or the thresholder is not one of the registered
operators l0/l1/cad; on success all five hyperparameters are stored and the
proximal operator is resolved through the registry. -/
theorem sr3_make_validation (threshold nu tol : ℚ) (thresholder : String)
    (max_iter : ℤ) :
    ((∃ e, SR3.make threshold nu tol thresholder max_iter = .error e) ↔
      threshold < 0 ∨ nu ≤ 0 ∨ tol ≤ 0 ∨ max_iter ≤ 0 ∨
        (thresholder ≠ "l0" ∧ thresholder ≠ "l1" ∧ thresholder ≠ "cad")) ∧
    (∀ P : SR3, SR3.make threshold nu tol thresholder max_iter = .ok P →
      P.threshold = threshold ∧ P.nu = nu ∧ P.tol = tol ∧
      P.thresholder = thresholder ∧ P.max_iter = max_iter ∧
      get_prox thresholder = some P.prox) := by
  unfold SR3.make
  split_ifs with h1 h2 h3 h4
  · exact ⟨⟨fun _ => Or.inl h1, fun _ => ⟨_, rfl⟩⟩, fun P hP => by simp at hP⟩
  · exact ⟨⟨fun _ => Or.inr (Or.inl h2), fun _ => ⟨_, rfl⟩⟩,
      fun P hP => by simp at hP⟩
  · exact ⟨⟨fun _ => Or.inr (Or.inr (Or.inl h3)), fun _ => ⟨_, rfl⟩⟩,
      fun P hP => by simp at hP⟩
  · exact ⟨⟨fun _ => Or.inr (Or.inr (Or.inr (Or.inl h4))), fun _ => ⟨_, rfl⟩⟩,
      fun P hP => by simp at hP⟩
  · rcases hgp : get_prox thresholder with _ | p
    · refine ⟨⟨fun _ => ?_, fun _ => ⟨_, rfl⟩⟩, fun P hP => by simp at hP⟩
      exact Or.inr (Or.inr (Or.inr (Or.inr
        ((get_prox_eq_none_iff thresholder).mp hgp))))
    · refine ⟨⟨fun he => ?_, fun hd => ?_⟩, fun P hP => ?_⟩
      · obtain ⟨e, he⟩ := he
        simp at he
      · rcases hd with h | h | h | h | h
        · exact absurd h h1
        · exact absurd h h2
        · exact absurd h h3
        · exact absurd h h4
        · rw [(get_prox_eq_none_iff thresholder).mpr h] at hgp
          exact Option.noConfusion hgp
      · injection hP with h
        subst h
        exact ⟨rfl, rfl, rfl, rfl, rfl, rfl⟩

theorem sr3_make_validation_witness :
    ∃ e, SR3.make (-1) 1 1 "l0" 30 = .error e :=
  (sr3_make_validation (-1) 1 1 "l0" 30).1.mpr (Or.inl (by norm_num))

theorem fit_eq_reduceLoop {s f t : ℕ} (P : SR3) (x : Matrix (Fin s) (Fin f) ℚ)
    (y : Matrix (Fin s) (Fin t) ℚ) (guess : Mat f t) :
    P.fit x y guess =
      SR3.reduceLoop P
        (cho_factor (x.transpose * x + Matrix.diagonal fun _ => 1 / P.nu))
        (x.transpose * y) P.max_iter.toNat guess none [] 0 :=
  rfl

theorem reduce_eq_reduceLoop {s f t : ℕ} (P : SR3) (x : Matrix (Fin s) (Fin f) ℚ)
    (y : Matrix (Fin s) (Fin t) ℚ) (cs : Mat f t) (hist : List (Mat f t))
    (iters : ℕ) :
    P.reduce x y cs hist iters =
      SR3.reduceLoop P
        (cho_factor (x.transpose * x + Matrix.diagonal fun _ => 1 / P.nu))
        (x.transpose * y) P.max_iter.toNat cs none hist iters :=
  rfl

/-- C3: a fit exits either Converged, exactly when the criterion over the final
history is below `tol`, or Exhausted, exactly when it is `≥ tol`, and an
Exhausted exit happens after exactly `max_iter` iterations. -/
theorem sr3_exit_dichotomy {s f t : ℕ} (P : SR3) (x : Matrix (Fin s) (Fin f) ℚ)
    (y : Matrix (Fin s) (Fin t) ℚ) (guess : Mat f t) (hmi : 1 ≤ P.max_iter) :
    ((P.fit x y guess).status = .converged ↔
      SR3.convergence_criterion (P.fit x y guess).history_ < P.tol) ∧
    ((P.fit x y guess).status = .exhausted ↔
      P.tol ≤ SR3.convergence_criterion (P.fit x y guess).history_) ∧
    ((P.fit x y guess).status = .exhausted →
      ((P.fit x y guess).iters : ℤ) = P.max_iter) := by
  have hfuel : 1 ≤ P.max_iter.toNat := by omega
  obtain ⟨h1, h2, h3, h4, h5, h6, h7⟩ :=
    reduceLoop_invariant P _ _ P.max_iter.toNat guess none [] 0
      (P.fit x y guess) (fit_eq_reduceLoop P x y guess)
  refine ⟨⟨fun hst => (h5 hst).2, fun hcrit => ?_⟩,
    ⟨fun hst => h6 (Or.inl hfuel) hst, fun hcrit => ?_⟩, fun hst => ?_⟩
  · cases hst : (P.fit x y guess).status
    · rfl
    · exact absurd hcrit (not_lt.mpr (h6 (Or.inl hfuel) hst))
  · cases hst : (P.fit x y guess).status
    · exact absurd (h5 hst).2 (not_lt.mpr hcrit)
    · rfl
  · have := (h4 hst).1
    omega

theorem sr3_exit_dichotomy_witness :
    1 ≤ sr3Default.max_iter ∧
    (((sr3Default.fit (!![1] : Matrix (Fin 1) (Fin 1) ℚ) !![1] !![0]).status =
        .converged ↔
      SR3.convergence_criterion
        (sr3Default.fit (!![1] : Matrix (Fin 1) (Fin 1) ℚ) !![1] !![0]).history_ <
        sr3Default.tol) ∧
     ((sr3Default.fit (!![1] : Matrix (Fin 1) (Fin 1) ℚ) !![1] !![0]).status =
        .exhausted ↔
      sr3Default.tol ≤ SR3.convergence_criterion
        (sr3Default.fit (!![1] : Matrix (Fin 1) (Fin 1) ℚ) !![1] !![0]).history_) ∧
     ((sr3Default.fit (!![1] : Matrix (Fin 1) (Fin 1) ℚ) !![1] !![0]).status =
        .exhausted →
      ((sr3Default.fit (!![1] : Matrix (Fin 1) (Fin 1) ℚ) !![1] !![0]).iters : ℤ) =
        sr3Default.max_iter)) :=
  ⟨by norm_num [sr3Default],
    sr3_exit_dichotomy sr3Default !![1] !![1] !![0] (by norm_num [sr3Default])⟩

/-- C5: an Exhausted exit emits exactly the `ConvergenceWarning` as a non-fatal
signal, the fit still returns a result, and the stored pair is the last
computed sparse/full pair (the same post-loop assignment as after a Converged
exit: `v = prox(w)` and `v` is the last history entry); a Converged exit emits
no warning. -/
theorem sr3_exhausted_nonfatal {s f t : ℕ} (P : SR3) (x : Matrix (Fin s) (Fin f) ℚ)
    (y : Matrix (Fin s) (Fin t) ℚ) (guess : Mat f t) (hmi : 1 ≤ P.max_iter) :
    ((P.fit x y guess).status = .exhausted →
      (P.fit x y guess).warnings = [P.convergence_warning] ∧
      ∃ w, (P.fit x y guess).coef_full_ = some w ∧
        (P.fit x y guess).coef_ = P.apply_prox w ∧
        (P.fit x y guess).history_.getLast? = some (P.fit x y guess).coef_) ∧
    ((P.fit x y guess).status = .converged →
      (P.fit x y guess).warnings = [] ∧
      ∃ w, (P.fit x y guess).coef_full_ = some w ∧
        (P.fit x y guess).coef_ = P.apply_prox w ∧
        (P.fit x y guess).history_.getLast? = some (P.fit x y guess).coef_) := by
  have hfuel : 1 ≤ P.max_iter.toNat := by omega
  obtain ⟨h1, h2, h3, h4, h5, h6, h7⟩ :=
    reduceLoop_invariant P _ _ P.max_iter.toNat guess none [] 0
      (P.fit x y guess) (fit_eq_reduceLoop P x y guess)
  exact ⟨fun hst => ⟨(h4 hst).2, h7 (Or.inl hfuel)⟩,
    fun hst => ⟨(h5 hst).1, h7 (Or.inl hfuel)⟩⟩

theorem sr3_exhausted_nonfatal_witness :
    1 ≤ sr3Default.max_iter ∧
    (((sr3Default.fit (!![1] : Matrix (Fin 1) (Fin 1) ℚ) !![1] !![0]).status =
        .exhausted →
      (sr3Default.fit (!![1] : Matrix (Fin 1) (Fin 1) ℚ) !![1] !![0]).warnings =
        [sr3Default.convergence_warning] ∧
      ∃ w, (sr3Default.fit (!![1] : Matrix (Fin 1) (Fin 1) ℚ) !![1] !![0]).coef_full_ =
          some w ∧
        (sr3Default.fit (!![1] : Matrix (Fin 1) (Fin 1) ℚ) !![1] !![0]).coef_ =
          sr3Default.apply_prox w ∧
        (sr3Default.fit (!![1] : Matrix (Fin 1) (Fin 1) ℚ) !![1] !![0]).history_.getLast? =
          some (sr3Default.fit (!![1] : Matrix (Fin 1) (Fin 1) ℚ) !![1] !![0]).coef_) ∧
     ((sr3Default.fit (!![1] : Matrix (Fin 1) (Fin 1) ℚ) !![1] !![0]).status =
        .converged →
      (sr3Default.fit (!![1] : Matrix (Fin 1) (Fin 1) ℚ) !![1] !![0]).warnings = [] ∧
      ∃ w, (sr3Default.fit (!![1] : Matrix (Fin 1) (Fin 1) ℚ) !![1] !![0]).coef_full_ =
          some w ∧
        (sr3Default.fit (!![1] : Matrix (Fin 1) (Fin 1) ℚ) !![1] !![0]).coef_ =
          sr3Default.apply_prox w ∧
        (sr3Default.fit (!![1] : Matrix (Fin 1) (Fin 1) ℚ) !![1] !![0]).history_.getLast? =
          some (sr3Default.fit (!![1] : Matrix (Fin 1) (Fin 1) ℚ) !![1] !![0]).coef_)) :=
  ⟨by norm_num [sr3Default],
    sr3_exhausted_nonfatal sr3Default !![1] !![1] !![0] (by norm_num [sr3Default])⟩

/-- C6: the history is append-only (the loop only ever appends one snapshot per
completed iteration), and after a fit the history length equals the number of
iterations actually performed, which is at most `max_iter`. -/
theorem sr3_history_append_only {s f t : ℕ} (P : SR3) (x : Matrix (Fin s) (Fin f) ℚ)
    (y : Matrix (Fin s) (Fin t) ℚ) (cs guess : Mat f t) (hist : List (Mat f t))
    (iters : ℕ) :
    (∃ l, (P.reduce x y cs hist iters).history_ = hist ++ l) ∧
    (P.fit x y guess).history_.length = (P.fit x y guess).iters ∧
    (P.fit x y guess).iters ≤ P.max_iter.toNat := by
  obtain ⟨g1, g2, g3, g4, g5, g6, g7⟩ :=
    reduceLoop_invariant P _ _ P.max_iter.toNat cs none hist iters
      (P.reduce x y cs hist iters) (reduce_eq_reduceLoop P x y cs hist iters)
  obtain ⟨h1, h2, h3, h4, h5, h6, h7⟩ :=
    reduceLoop_invariant P _ _ P.max_iter.toNat guess none [] 0
      (P.fit x y guess) (fit_eq_reduceLoop P x y guess)
  refine ⟨g3, ?_, ?_⟩
  · simpa using h1
  · simpa using h2.2

/-- C10: whenever construction accepted the hyperparameters (`max_iter ≥ 1`),
the loop body runs at least once, so the post-loop read of the full coefficient
is defined: `fit` never ends with the full coefficient unbound. -/
theorem sr3_coef_full_always_defined {s f t : ℕ} (P : SR3)
    (x : Matrix (Fin s) (Fin f) ℚ) (y : Matrix (Fin s) (Fin t) ℚ)
    (guess : Mat f t) (hmi : 1 ≤ P.max_iter) :
    (P.fit x y guess).coef_full_.isSome = true := by
  have hfuel : 1 ≤ P.max_iter.toNat := by omega
  obtain ⟨h1, h2, h3, h4, h5, h6, h7⟩ :=
    reduceLoop_invariant P _ _ P.max_iter.toNat guess none [] 0
      (P.fit x y guess) (fit_eq_reduceLoop P x y guess)
  obtain ⟨w, hw, _, _⟩ := h7 (Or.inl hfuel)
  simp [hw]

theorem sr3_coef_full_always_defined_witness :
    1 ≤ sr3Default.max_iter ∧
    (sr3Default.fit (!![1] : Matrix (Fin 1) (Fin 1) ℚ) !![1] !![0]).coef_full_.isSome
      = true :=
  ⟨by norm_num [sr3Default],
    sr3_coef_full_always_defined sr3Default !![1] !![1] !![0]
      (by norm_num [sr3Default])⟩

/-- C9: a fit is a deterministic function of the optimizer configuration, X, Y
and the initial guess: two fit calls with identical inputs agree exactly, no
matter what optimizer state earlier fits left behind; moreover the mutable
iteration counter never influences the computed coefficients, history or exit
status of `_reduce`. -/
theorem sr3_fit_deterministic {s f t : ℕ} (P : SR3) (x : Matrix (Fin s) (Fin f) ℚ)
    (y : Matrix (Fin s) (Fin t) ℚ) (guess cs : Mat f t)
    (p₁ p₂ : List (Mat f t) × ℕ) (hist : List (Mat f t)) (i₁ i₂ : ℕ) :
    (P.fitFrom x y guess p₁ = P.fitFrom x y guess p₂) ∧
    (P.fitFrom x y guess p₁).coef_ = (P.fit x y guess).coef_ ∧
    (P.fitFrom x y guess p₁).coef_full_ = (P.fit x y guess).coef_full_ ∧
    ((P.reduce x y cs hist i₁).coef_ = (P.reduce x y cs hist i₂).coef_ ∧
      (P.reduce x y cs hist i₁).coef_full_ = (P.reduce x y cs hist i₂).coef_full_ ∧
      (P.reduce x y cs hist i₁).history_ = (P.reduce x y cs hist i₂).history_ ∧
      (P.reduce x y cs hist i₁).status = (P.reduce x y cs hist i₂).status) := by
  refine ⟨rfl, rfl, rfl, ?_⟩
  obtain ⟨hc, hf, hh, hs, _⟩ :=
    reduceLoop_iters_independent P
      (cho_factor (x.transpose * x + Matrix.diagonal fun _ => 1 / P.nu))
      (x.transpose * y) P.max_iter.toNat cs none hist i₁ i₂
  exact ⟨hc, hf, hh, hs⟩

/-- C1: with `M = XᵀX + (1/ν)·I` (the diagonal built by `_reduce` is exactly
`(1/ν)·I`), the full-coefficient update returns `w = M⁻¹·(XᵀY + v/ν)`;
`_reduce` factorizes `M` exactly once, before the loop starts, and every
iteration of the loop solves with that same cached factorization and passes it
unchanged to the next iteration. -/
theorem sr3_full_coef_update_cached {s f t : ℕ} (P : SR3)
    (x : Matrix (Fin s) (Fin f) ℚ) (y : Matrix (Fin s) (Fin t) ℚ)
    (M : Matrix (Fin f) (Fin f) ℚ) (hnu : 0 < P.nu)
    (hMdef : M = x.transpose * x + Matrix.diagonal fun _ => 1 / P.nu)
    (hM : IsUnit M.det) :
    (Matrix.diagonal (fun _ : Fin f => 1 / P.nu) =
      P.nu⁻¹ • (1 : Matrix (Fin f) (Fin f) ℚ)) ∧
    (∀ (v : Mat f t) (iters : ℕ),
      P.update_full_coef (cho_factor M) (x.transpose * y) v iters =
        (M⁻¹ * (x.transpose * y + P.nu⁻¹ • v), iters + 1)) ∧
    (∀ (cs : Mat f t) (hist : List (Mat f t)) (iters : ℕ),
      P.reduce x y cs hist iters =
        SR3.reduceLoop P (cho_factor M) (x.transpose * y) P.max_iter.toNat
          cs none hist iters) ∧
    (∀ (fuel : ℕ) (v : Mat f t) (cf : Option (Mat f t)) (hist : List (Mat f t))
      (iters : ℕ),
      SR3.reduceLoop P (cho_factor M) (x.transpose * y) (fuel + 1) v cf hist iters =
        if SR3.convergence_criterion
            (hist ++ [P.apply_prox (M⁻¹ * (x.transpose * y + P.nu⁻¹ • v))]) <
            P.tol then
          { coef_ := P.apply_prox (M⁻¹ * (x.transpose * y + P.nu⁻¹ • v)),
            coef_full_ := some (M⁻¹ * (x.transpose * y + P.nu⁻¹ • v)),
            history_ := hist ++ [P.apply_prox (M⁻¹ * (x.transpose * y + P.nu⁻¹ • v))],
            iters := iters + 1, status := .converged, warnings := [] }
        else
          SR3.reduceLoop P (cho_factor M) (x.transpose * y) fuel
            (P.apply_prox (M⁻¹ * (x.transpose * y + P.nu⁻¹ • v)))
            (some (M⁻¹ * (x.transpose * y + P.nu⁻¹ • v)))
            (hist ++ [P.apply_prox (M⁻¹ * (x.transpose * y + P.nu⁻¹ • v))])
            (iters + 1)) := by
  have hsolve : ∀ b : Mat f t, cho_solve (cho_factor M) b = M⁻¹ * b := by
    intro b
    rw [cho_solve, matInv_eq_inv]
    rfl
  refine ⟨?_, ?_, ?_, ?_⟩
  · ext i j
    by_cases hij : i = j
    · subst hij
      simp [Matrix.diagonal_apply_eq, Matrix.one_apply_eq, one_div]
    · simp [Matrix.diagonal_apply_ne _ hij, Matrix.one_apply_ne hij]
  · intro v iters
    simp only [SR3.update_full_coef]
    rw [hsolve]
  · intro cs hist iters
    rw [reduce_eq_reduceLoop, hMdef]
  · intro fuel v cf hist iters
    rw [reduceLoop_succ, hsolve]

theorem sr3_full_coef_update_cached_witness :
    (0 < sr3Default.nu ∧
      (!![2] : Matrix (Fin 1) (Fin 1) ℚ) =
        (!![1] : Matrix (Fin 1) (Fin 1) ℚ).transpose * !![1] +
          Matrix.diagonal (fun _ => 1 / sr3Default.nu) ∧
      IsUnit (!![2] : Matrix (Fin 1) (Fin 1) ℚ).det) ∧
    sr3Default.update_full_coef (cho_factor (!![2] : Matrix (Fin 1) (Fin 1) ℚ))
        ((!![1] : Matrix (Fin 1) (Fin 1) ℚ).transpose * (!![1] : Matrix (Fin 1) (Fin 1) ℚ))
        (!![0] : Mat 1 1) 0 =
      ((!![2] : Matrix (Fin 1) (Fin 1) ℚ)⁻¹ *
        ((!![1] : Matrix (Fin 1) (Fin 1) ℚ).transpose * !![1] +
          sr3Default.nu⁻¹ • (!![0] : Mat 1 1)), 0 + 1) := by
  have hnu : 0 < sr3Default.nu := by norm_num [sr3Default]
  have hMdef : (!![2] : Matrix (Fin 1) (Fin 1) ℚ) =
      (!![1] : Matrix (Fin 1) (Fin 1) ℚ).transpose * !![1] +
        Matrix.diagonal (fun _ => 1 / sr3Default.nu) := by
    ext i j
    fin_cases i
    fin_cases j
    norm_num [Matrix.mul_apply, Fin.sum_univ_one, Matrix.transpose_apply,
      Matrix.diagonal_apply_eq, sr3Default]
  have hM : IsUnit (!![2] : Matrix (Fin 1) (Fin 1) ℚ).det := by
    have hdet : (!![2] : Matrix (Fin 1) (Fin 1) ℚ).det = 2 := by
      simp [Matrix.det_fin_one]
    rw [hdet]
    exact isUnit_iff_ne_zero.mpr (by norm_num)
  exact ⟨⟨hnu, hMdef, hM⟩,
    (sr3_full_coef_update_cached sr3Default !![1] !![1] !![2] hnu hMdef hM).2.1
      !![0] 0⟩

/-- C8 (counterexample): with `max_iter = 1`, `X = [[1]]`, `Y = [[0]]` and an
all-zero initial guess, the single iteration produces a zero sparse snapshot,
the criterion `0` is already below `tol`, and the loop exits Converged with no
warning — not Exhausted, contradicting the claim for this input. -/
theorem sr3_max_iter_one_not_always_exhausted :
    (sr3OneIter.fit (!![1] : Matrix (Fin 1) (Fin 1) ℚ)
        (!![0] : Matrix (Fin 1) (Fin 1) ℚ) (!![0] : Mat 1 1)).status ≠
      ReduceStatus.exhausted ∧
    (sr3OneIter.fit (!![1] : Matrix (Fin 1) (Fin 1) ℚ)
        (!![0] : Matrix (Fin 1) (Fin 1) ℚ) (!![0] : Mat 1 1)).status =
      ReduceStatus.converged ∧
    (sr3OneIter.fit (!![1] : Matrix (Fin 1) (Fin 1) ℚ)
        (!![0] : Matrix (Fin 1) (Fin 1) ℚ) (!![0] : Mat 1 1)).warnings = [] := by
  have h0 : (!![0] : Mat 1 1) = 0 := by
    ext i j
    fin_cases i
    fin_cases j
    norm_num
  rw [fit_eq_reduceLoop, h0]
  have ht1 : sr3OneIter.max_iter.toNat = 1 := rfl
  rw [ht1]
  have hxty : (!![1] : Matrix (Fin 1) (Fin 1) ℚ).transpose *
      (0 : Matrix (Fin 1) (Fin 1) ℚ) = 0 := Matrix.mul_zero _
  rw [hxty, reduceLoop_succ]
  have hb : (0 : Mat 1 1) + sr3OneIter.nu⁻¹ • (0 : Mat 1 1) = 0 := by simp
  rw [hb]
  have hw : cho_solve (cho_factor ((!![1] : Matrix (Fin 1) (Fin 1) ℚ).transpose *
      !![1] + Matrix.diagonal fun _ => 1 / sr3OneIter.nu)) (0 : Mat 1 1) = 0 := by
    rw [cho_solve]
    exact Matrix.mul_zero _
  rw [hw]
  have hv : sr3OneIter.apply_prox (0 : Mat 1 1) = 0 := by
    ext i j
    simp [SR3.apply_prox, sr3OneIter, sr3Default, prox_l0]
  rw [hv]
  have hcrit : SR3.convergence_criterion (([] : List (Mat 1 1)) ++ [(0 : Mat 1 1)]) = 0 := by
    simp [SR3.convergence_criterion]
  rw [if_pos (by rw [hcrit]; norm_num [sr3OneIter, sr3Default])]
  exact ⟨fun h => ReduceStatus.noConfusion h, rfl, rfl⟩

/-- C8 (amended): with `max_iter = 1`, every fit performs exactly one iteration
(History has exactly one entry) and stores a usable sparse/full pair; the exit
is Exhausted with the convergence warning exactly when that single snapshot's
criterion is `≥ tol`, and Converged with no warning when it is `< tol`. -/
theorem sr3_max_iter_one_boundary {s f t : ℕ} (P : SR3)
    (x : Matrix (Fin s) (Fin f) ℚ) (y : Matrix (Fin s) (Fin t) ℚ)
    (guess : Mat f t) (hone : P.max_iter = 1) :
    (P.fit x y guess).history_.length = 1 ∧
    (P.fit x y guess).coef_full_.isSome = true ∧
    (P.fit x y guess).history_.getLast? = some (P.fit x y guess).coef_ ∧
    (P.tol ≤ SR3.convergence_criterion (P.fit x y guess).history_ →
      (P.fit x y guess).status = .exhausted ∧
      (P.fit x y guess).warnings = [P.convergence_warning]) ∧
    (SR3.convergence_criterion (P.fit x y guess).history_ < P.tol →
      (P.fit x y guess).status = .converged ∧
      (P.fit x y guess).warnings = []) := by
  have hfuel : P.max_iter.toNat = 1 := by omega
  have hones : 1 ≤ P.max_iter.toNat := by omega
  obtain ⟨h1, h2, h3, h4, h5, h6, h7⟩ :=
    reduceLoop_invariant P _ _ P.max_iter.toNat guess none [] 0
      (P.fit x y guess) (fit_eq_reduceLoop P x y guess)
  obtain ⟨w, hw, hv, hl⟩ := h7 (Or.inl hones)
  have hne : (P.fit x y guess).history_ ≠ [] := by
    intro hemp
    rw [hemp] at hl
    simp at hl
  have hpos : 0 < (P.fit x y guess).history_.length := List.length_pos.mpr hne
  have hlen : (P.fit x y guess).history_.length = 1 := by
    simp only [List.length_nil, Nat.add_zero, Nat.zero_add] at h1
    have hub := h2.2
    omega
  refine ⟨hlen, by simp [hw], hl, ?_, ?_⟩
  · intro hge
    cases hst : (P.fit x y guess).status
    · exact absurd (h5 hst).2 (not_lt.mpr hge)
    · exact ⟨rfl, (h4 hst).2⟩
  · intro hlt
    cases hst : (P.fit x y guess).status
    · exact ⟨rfl, (h5 hst).1⟩
    · exact absurd hlt (not_lt.mpr (h6 (Or.inl hones) hst))

theorem sr3_max_iter_one_boundary_witness :
    sr3OneIter.max_iter = 1 ∧
    ((sr3OneIter.fit (!![1] : Matrix (Fin 1) (Fin 1) ℚ) !![1] !![0]).history_.length = 1 ∧
     (sr3OneIter.fit (!![1] : Matrix (Fin 1) (Fin 1) ℚ) !![1] !![0]).coef_full_.isSome = true ∧
     (sr3OneIter.fit (!![1] : Matrix (Fin 1) (Fin 1) ℚ) !![1] !![0]).history_.getLast? =
       some (sr3OneIter.fit (!![1] : Matrix (Fin 1) (Fin 1) ℚ) !![1] !![0]).coef_ ∧
     (sr3OneIter.tol ≤ SR3.convergence_criterion
         (sr3OneIter.fit (!![1] : Matrix (Fin 1) (Fin 1) ℚ) !![1] !![0]).history_ →
       (sr3OneIter.fit (!![1] : Matrix (Fin 1) (Fin 1) ℚ) !![1] !![0]).status = .exhausted ∧
       (sr3OneIter.fit (!![1] : Matrix (Fin 1) (Fin 1) ℚ) !![1] !![0]).warnings =
         [sr3OneIter.convergence_warning]) ∧
     (SR3.convergence_criterion
         (sr3OneIter.fit (!![1] : Matrix (Fin 1) (Fin 1) ℚ) !![1] !![0]).history_ <
         sr3OneIter.tol →
       (sr3OneIter.fit (!![1] : Matrix (Fin 1) (Fin 1) ℚ) !![1] !![0]).status = .converged ∧
       (sr3OneIter.fit (!![1] : Matrix (Fin 1) (Fin 1) ℚ) !![1] !![0]).warnings = [])) :=
  ⟨rfl, sr3_max_iter_one_boundary sr3OneIter !![1] !![1] !![0] rfl⟩
